import Mathlib

/-!
Shallow embedding of the bond-pricing helpers of `lec01_bonds_price.py` and
`lec02_bond_management.py`, over exact rationals.

Conventions of the embedding:
* Python floats are modelled as `ℚ`; `np.nan` sentinels are modelled as
  `Option.none`; a raised `ZeroDivisionError` is modelled by the `exn`
  constructor of `PyResult` where a claim needs to distinguish it.
* The literal `1e-12` of the source is modelled as the exact rational
  `1/10^12`.
* `x ** (-n)` on floats (with `n` a positive integer) is modelled as
  `1 / x ^ n`; at `x = 0` Python raises while the rational model returns `0`,
  so theorems touching that point carry a `1 + r ≠ 0` style hypothesis.
* Python's `round` rounds half to even (banker's rounding); `pyRound` below
  reproduces that on `ℚ`.
-/

namespace BondApp

/-- Banker's rounding, as Python's builtin `round`: nearest integer, ties to
even. -/
def pyRound (q : ℚ) : ℤ :=
  if q - ⌊q⌋ < 1/2 then ⌊q⌋
  else if 1/2 < q - ⌊q⌋ then ⌊q⌋ + 1
  else if ⌊q⌋ % 2 = 0 then ⌊q⌋ else ⌊q⌋ + 1

/-- Number of coupon periods: `max(int(round(years * frequency)), 1)`.
This is `_safe_periods` of `lec02_bond_management.py` (in its `years > 0`
regime) and is inlined identically in `lec01_bonds_price.py`. -/
def nPeriods (years : ℚ) (frequency : ℕ) : ℕ :=
  max (pyRound (years * frequency)).toNat 1

/-- Cash flow of period `t` out of `n`: the per-period coupon, plus the face
value at the terminal period. -/
def cashflow (c face : ℚ) (n t : ℕ) : ℚ :=
  c + if t = n then face else 0

/-- Result of a Python float computation that can also signal NaN or raise. -/
inductive PyResult where
  | nan : PyResult
  | val : ℚ → PyResult
  | exn : PyResult
deriving DecidableEq

namespace Lec01

/-- Embedding of `calculate_bond_price` of `lec01_bonds_price.py`
(lines 99-116). -/
def calculate_bond_price (face_value coupon_rate years_to_maturity ytm : ℚ)
    (frequency : ℕ) : ℚ :=
  if years_to_maturity ≤ 0 then face_value
  else
    let n := nPeriods years_to_maturity frequency
    let coupon_payment := face_value * coupon_rate / frequency
    let discount_rate := ytm / frequency
    let pv_coupons :=
      if |discount_rate| < 1/10^12 then coupon_payment * n
      else coupon_payment * (1 - 1/(1 + discount_rate)^n) / discount_rate
    let pv_face := face_value / (1 + discount_rate)^n
    pv_coupons + pv_face

/-- Exception-aware refinement of `calculate_bond_price` of
`lec01_bonds_price.py` (lines 99-116).  On the live path (`years > 0`,
schedule length at least 1) Python evaluates `(1 + discount_rate) ** (-n)`
and `face / (1 + discount_rate) ** n`, which raise `ZeroDivisionError`
exactly when `1 + ytm/frequency = 0` (a zero float base with a negative
power, respectively a division by zero); everywhere else the float
computation is the one modelled by `calculate_bond_price`. -/
def bond_price_checked (face_value coupon_rate years_to_maturity ytm : ℚ)
    (frequency : ℕ) : PyResult :=
  if years_to_maturity ≤ 0 then .val face_value
  else if 1 + ytm / (frequency : ℚ) = 0 then .exn
  else .val (calculate_bond_price face_value coupon_rate years_to_maturity ytm frequency)

/-- Embedding of `calculate_current_yield` of `lec01_bonds_price.py`
(lines 118-121); `none` is the `np.nan` sentinel. -/
def calculate_current_yield (coupon_rate face_value price : ℚ) : Option ℚ :=
  if price = 0 then none else some (coupon_rate * face_value / price)

/-- Embedding of `ytm_approximation` of `lec01_bonds_price.py`
(lines 123-131); `PyResult.exn` marks the `ZeroDivisionError` Python raises
when the denominator `(face_value + price) / 2` is zero. -/
def ytm_approximation (price face_value coupon_rate years_to_maturity : ℚ) :
    PyResult :=
  if years_to_maturity ≤ 0 then .nan
  else if (face_value + price) / 2 = 0 then .exn
  else .val ((coupon_rate * face_value + (face_value - price) / years_to_maturity)
      / ((face_value + price) / 2))

/-- Per-period present value inside `calculate_duration` / `calculate_convexity`
of `lec01_bonds_price.py`: the cash flow is discounted only when
`abs(r) > 1e-12`. -/
def pv (c face r : ℚ) (n t : ℕ) : ℚ :=
  if 1/10^12 < |r| then cashflow c face n t / (1 + r)^t else cashflow c face n t

/-- Embedding of `calculate_duration` of `lec01_bonds_price.py`
(lines 133-152); `none` is the `np.nan` sentinel returned when the
accumulated `total_pv` is zero. -/
def calculate_duration (face_value coupon_rate years ytm : ℚ)
    (frequency : ℕ) : Option ℚ :=
  let n := nPeriods years frequency
  let c := face_value * coupon_rate / frequency
  let r := ytm / frequency
  let weighted_pv := ∑ t ∈ Finset.range n, ((t + 1 : ℚ) / frequency) * pv c face_value r n (t + 1)
  let total_pv := ∑ t ∈ Finset.range n, pv c face_value r n (t + 1)
  if total_pv = 0 then none else some (weighted_pv / total_pv)

/-- Embedding of `calculate_modified_duration` of `lec01_bonds_price.py`
(lines 154-156). -/
def calculate_modified_duration (macaulay_duration ytm : ℚ) (frequency : ℕ) : ℚ :=
  macaulay_duration / (1 + ytm / frequency)

/-- Embedding of `calculate_convexity` of `lec01_bonds_price.py`
(lines 158-177); `none` is the `np.nan` sentinel returned when the price is
zero. -/
def calculate_convexity (face_value coupon_rate years ytm : ℚ)
    (frequency : ℕ) : Option ℚ :=
  let n := nPeriods years frequency
  let c := face_value * coupon_rate / frequency
  let r := ytm / frequency
  let price := calculate_bond_price face_value coupon_rate years ytm frequency
  if price = 0 then none
  else
    let convexity_sum :=
      ∑ t ∈ Finset.range n, pv c face_value r n (t + 1) * (t + 1) * (t + 2)
    some (convexity_sum / (price * (1 + r)^2 * (frequency : ℚ)^2))

/-- Embedding of `price_change_duration` of `lec01_bonds_price.py`
(lines 179-181). -/
def price_change_duration (modified_duration delta_yield : ℚ) : ℚ :=
  -modified_duration * delta_yield

/-- Embedding of `price_change_duration_convexity` of `lec01_bonds_price.py`
(lines 183-185). -/
def price_change_duration_convexity (modified_duration convexity delta_yield : ℚ) : ℚ :=
  -modified_duration * delta_yield + 1/2 * convexity * delta_yield^2

end Lec01

namespace Lec02

/-- Embedding of `calculate_bond_price` of `lec02_bond_management.py`
(lines 80-96).  This copy uses the undiscounted face value in the near-zero
rate branch `abs(r) < 1e-12`, unlike the `lec01` copy. -/
def calculate_bond_price (face_value coupon_rate years ytm : ℚ)
    (frequency : ℕ) : ℚ :=
  if years ≤ 0 then face_value
  else
    let n := nPeriods years frequency
    let c := face_value * coupon_rate / frequency
    let r := ytm / frequency
    if |r| < 1/10^12 then c * n + face_value
    else c * (1 - 1/(1 + r)^n) / r + face_value / (1 + r)^n

/-- Per-period present value inside `calculate_duration` / `calculate_convexity`
of `lec02_bond_management.py`: the cash flow is left undiscounted when
`abs(r) < 1e-12` (note the branch condition differs from the `lec01` copy,
which tests `abs(r) > 1e-12`). -/
def pv (c face r : ℚ) (n t : ℕ) : ℚ :=
  if |r| < 1/10^12 then cashflow c face n t else cashflow c face n t / (1 + r)^t

/-- The accumulator `total_pv` of the cash-flow loop of `calculate_duration`
of `lec02_bond_management.py` (lines 98-124), for the `years > 0` path. -/
def duration_total_pv (face_value coupon_rate years ytm : ℚ)
    (frequency : ℕ) : ℚ :=
  let n := nPeriods years frequency
  ∑ t ∈ Finset.range n,
    pv (face_value * coupon_rate / frequency) face_value (ytm / frequency) n (t + 1)

/-- The accumulator `weighted_pv` of the cash-flow loop of `calculate_duration`
of `lec02_bond_management.py` (lines 98-124), for the `years > 0` path. -/
def duration_weighted_pv (face_value coupon_rate years ytm : ℚ)
    (frequency : ℕ) : ℚ :=
  let n := nPeriods years frequency
  ∑ t ∈ Finset.range n,
    ((t + 1 : ℚ) / frequency) *
      pv (face_value * coupon_rate / frequency) face_value (ytm / frequency) n (t + 1)

/-- Embedding of `calculate_duration` of `lec02_bond_management.py`
(lines 98-124): returns `0.0` for a matured bond, the `np.nan` sentinel
(`none`) when `total_pv` is zero. -/
def calculate_duration (face_value coupon_rate years ytm : ℚ)
    (frequency : ℕ) : Option ℚ :=
  if years ≤ 0 then some 0
  else if duration_total_pv face_value coupon_rate years ytm frequency = 0 then none
  else some (duration_weighted_pv face_value coupon_rate years ytm frequency /
      duration_total_pv face_value coupon_rate years ytm frequency)

/-- Embedding of `calculate_modified_duration` of `lec02_bond_management.py`
(lines 126-128); this copy guards the zero denominator with an `np.nan`
sentinel. -/
def calculate_modified_duration (macaulay_duration ytm : ℚ)
    (frequency : ℕ) : Option ℚ :=
  if 1 + ytm / frequency = 0 then none
  else some (macaulay_duration / (1 + ytm / frequency))

/-- Embedding of `calculate_convexity` of `lec02_bond_management.py`
(lines 130-157): returns `0.0` for a matured bond, the `np.nan` sentinel
(`none`) when the price or the final denominator is zero. -/
def calculate_convexity (face_value coupon_rate years ytm : ℚ)
    (frequency : ℕ) : Option ℚ :=
  if years ≤ 0 then some 0
  else
    let n := nPeriods years frequency
    let c := face_value * coupon_rate / frequency
    let r := ytm / frequency
    let price := calculate_bond_price face_value coupon_rate years ytm frequency
    if price = 0 then none
    else
      let convexity_sum :=
        ∑ t ∈ Finset.range n, pv c face_value r n (t + 1) * (t + 1) * (t + 2)
      let denom := price * (1 + r)^2 * (frequency : ℚ)^2
      if denom = 0 then none else some (convexity_sum / denom)

/-- Rational stand-in for Python's float `**` with a possibly fractional
exponent: defined (as the integer power) only when the exponent is an
integer, `none` otherwise.  The immunization page applies it only as
`(1 + ytm) ** liability_years` under a `1 + ytm > 0` guard. -/
def qpow (b e : ℚ) : Option ℚ :=
  if e.den = 1 then some (b ^ e.num) else none

/-- Embedding of `np.linspace a b m`: `m` evenly spaced points from `a` to `b`
inclusive. -/
def linspace (a b : ℚ) (m : ℕ) : List ℚ :=
  (List.range m).map (fun i => a + (b - a) * i / (m - 1))

/-- Embedding of `np.nanargmin`: index of the first smallest non-NaN entry,
`none` when every entry is NaN (where NumPy raises `ValueError`). -/
def nanargmin (l : List (Option ℚ)) : Option ℕ :=
  (l.enum.foldl
    (fun acc p =>
      match p.2 with
      | none => acc
      | some v =>
        match acc with
        | none => some (p.1, v)
        | some jw => if v < jw.2 then some (p.1, v) else some jw)
    none).map Prod.fst

/-- The quantities interpolated into the strategy box rendered by
`show_immunization` of `lec02_bond_management.py` (lines 772-795).
`none` fields are `np.nan` sentinels. -/
structure ImmunizationStrategy where
  optimal_maturity : ℚ
  optimal_duration : ℚ
  bond_price : ℚ
  pv_liability : Option ℚ
  num_bonds : Option ℚ
  total_investment : Option ℚ
deriving DecidableEq

/-- The candidate maturities `np.linspace(max(0.5, liability_years), liability_years + 10, 100)`
searched by `show_immunization` of `lec02_bond_management.py` (line 773). -/
def test_maturities (liability_years : ℚ) : List ℚ :=
  linspace (max (1/2) liability_years) (liability_years + 10) 100

/-- The candidate durations computed by `show_immunization` of
`lec02_bond_management.py` (line 774). -/
def candidate_durations (liability_years bond_coupon current_ytm : ℚ) :
    List (Option ℚ) :=
  (test_maturities liability_years).map
    (fun m => calculate_duration 1000 bond_coupon m current_ytm 2)

/-- The `closest_idx` selection of `show_immunization` of
`lec02_bond_management.py` (line 777). -/
def closest_maturity_idx (liability_years bond_coupon current_ytm : ℚ) : Option ℕ :=
  nanargmin ((candidate_durations liability_years bond_coupon current_ytm).map
    (Option.map (fun d => |d - liability_years|)))

/-- The strategy quantities computed and rendered by `show_immunization` of
`lec02_bond_management.py` (lines 778-795), given the selected index. -/
def strategy_at (liability_amount liability_years bond_coupon current_ytm : ℚ)
    (closest_idx : ℕ) : ImmunizationStrategy :=
  let optimal_maturity := (test_maturities liability_years).getD closest_idx 0
  let optimal_duration :=
    ((candidate_durations liability_years bond_coupon current_ytm).getD closest_idx none).getD 0
  let bond_price := calculate_bond_price 1000 bond_coupon optimal_maturity current_ytm 2
  let pv_liability :=
    if 0 < 1 + current_ytm then
      (qpow (1 + current_ytm) liability_years).map (fun q => liability_amount / q)
    else none
  let num_bonds :=
    if 0 < bond_price then pv_liability.map (fun q => q / bond_price) else none
  let total_investment := num_bonds.map (fun q => q * bond_price)
  ⟨optimal_maturity, optimal_duration, bond_price, pv_liability,
    num_bonds, total_investment⟩

/-- Embedding of the maturity search and strategy computation of
`show_immunization` of `lec02_bond_management.py` (lines 772-795): the overall
`none` models the `ValueError` that `np.nanargmin` raises when every candidate
duration is NaN; otherwise the strategy box is always produced, with `np.nan`
(`none`) propagated into `num_bonds` and `total_investment` when the bond
price is not positive or the liability PV is NaN. -/
def show_immunization (liability_amount liability_years bond_coupon current_ytm : ℚ) :
    Option ImmunizationStrategy :=
  match closest_maturity_idx liability_years bond_coupon current_ytm with
  | none => none
  | some closest_idx =>
    some (strategy_at liability_amount liability_years bond_coupon current_ytm closest_idx)

end Lec02

/-! ### Helper lemmas about the shared cash-flow schedule -/

theorem one_le_nPeriods (years : ℚ) (f : ℕ) : 1 ≤ nPeriods years f :=
  Nat.le_max_right _ _

/-- Total undiscounted cash flow of the schedule. -/
theorem sum_cashflow_eq (c face : ℚ) {n : ℕ} (hn : 1 ≤ n) :
    ∑ t ∈ Finset.range n, cashflow c face n (t + 1) = n * c + face := by
  have h : ∀ t ∈ Finset.range n, cashflow c face n (t + 1)
      = c + if t = n - 1 then face else 0 := by
    intro t ht
    unfold cashflow
    congr 1
    have : t + 1 = n ↔ t = n - 1 := by omega
    simp [this]
  rw [Finset.sum_congr rfl h, Finset.sum_add_distrib, Finset.sum_const,
    Finset.card_range, Finset.sum_ite_eq' (Finset.range n) (n - 1)]
  have hmem : n - 1 ∈ Finset.range n := by
    simp [Finset.mem_range]; omega
  simp [hmem, nsmul_eq_mul]

/-- The discounted cash-flow sum splits into coupon part and face part. -/
theorem sum_split (c face r : ℚ) {n : ℕ} (hn : 1 ≤ n) :
    ∑ t ∈ Finset.range n, cashflow c face n (t + 1) / (1 + r) ^ (t + 1)
      = (∑ t ∈ Finset.range n, c / (1 + r) ^ (t + 1)) + face / (1 + r) ^ n := by
  have h : ∀ t ∈ Finset.range n, cashflow c face n (t + 1) / (1 + r) ^ (t + 1)
      = c / (1 + r) ^ (t + 1)
        + if t = n - 1 then face / (1 + r) ^ (t + 1) else 0 := by
    intro t ht
    unfold cashflow
    have hiff : t + 1 = n ↔ t = n - 1 := by omega
    have hidx : n - 1 + 1 = n := by omega
    by_cases hc : t = n - 1
    · simp [hiff, hc, add_div, hidx]
    · simp [hiff, hc]
  rw [Finset.sum_congr rfl h, Finset.sum_add_distrib,
    Finset.sum_ite_eq' (Finset.range n) (n - 1)]
  have hmem : n - 1 ∈ Finset.range n := by
    simp [Finset.mem_range]; omega
  have hidx : n - 1 + 1 = n := by omega
  simp [hmem, hidx]

/-- Geometric present-value identity for the coupon stream. -/
theorem geom_pv (r : ℚ) (hr : r ≠ 0) (h1 : 1 + r ≠ 0) (n : ℕ) :
    ∑ t ∈ Finset.range n, 1 / (1 + r) ^ (t + 1) = (1 - 1 / (1 + r) ^ n) / r := by
  induction n with
  | zero => simp
  | succ n ih =>
    rw [Finset.sum_range_succ, ih]
    have hp : (1 + r) ^ n ≠ 0 := pow_ne_zero _ h1
    field_simp
    ring

/-- The closed-form price expression equals the discounted cash-flow sum. -/
theorem closed_eq_sum (c face r : ℚ) (hr : r ≠ 0) (h1 : 1 + r ≠ 0) {n : ℕ}
    (hn : 1 ≤ n) :
    c * (1 - 1 / (1 + r) ^ n) / r + face / (1 + r) ^ n
      = ∑ t ∈ Finset.range n, cashflow c face n (t + 1) / (1 + r) ^ (t + 1) := by
  rw [sum_split c face r hn]
  have hcoup : ∑ t ∈ Finset.range n, c / (1 + r) ^ (t + 1)
      = c * ((1 - 1 / (1 + r) ^ n) / r) := by
    rw [← geom_pv r hr h1 n, Finset.mul_sum]
    exact Finset.sum_congr rfl fun t _ => by rw [mul_one_div]
  rw [hcoup, mul_div_assoc]

/-- Unfolding of lec01's `calculate_bond_price` on the live (`years > 0`)
path. -/
theorem Lec01.price_unfold_lec01 (face cr years y : ℚ) (f : ℕ) (hy : 0 < years) :
    Lec01.calculate_bond_price face cr years y f =
      (if |y / (f : ℚ)| < 1/10^12 then face * cr / f * (nPeriods years f : ℚ)
       else face * cr / f * (1 - 1 / (1 + y / f) ^ nPeriods years f) / (y / f))
        + face / (1 + y / (f : ℚ)) ^ nPeriods years f := by
  unfold Lec01.calculate_bond_price
  rw [if_neg (not_le.mpr hy)]

/-- Unfolding of lec02's `calculate_bond_price` on the live (`years > 0`)
path. -/
theorem Lec02.price_unfold_lec02 (face cr years y : ℚ) (f : ℕ) (hy : 0 < years) :
    Lec02.calculate_bond_price face cr years y f =
      if |y / (f : ℚ)| < 1/10^12 then
        face * cr / f * (nPeriods years f : ℚ) + face
      else
        face * cr / f * (1 - 1 / (1 + y / f) ^ nPeriods years f) / (y / f)
          + face / (1 + y / (f : ℚ)) ^ nPeriods years f := by
  unfold Lec02.calculate_bond_price
  rw [if_neg (not_le.mpr hy)]

/-! ### C10: matured-bond degenerate values in lec02 -/

/-- C10: for a matured bond (`years ≤ 0`) the lec02 implementations return the
degenerate values `0.0` from `calculate_duration` and `calculate_convexity`
and the face value from `calculate_bond_price`; all three are total (no
exception is modelled because none can occur on this path). -/
theorem C10_matured_bond_degenerate (face cr years ytm : ℚ) (f : ℕ)
    (h : years ≤ 0) :
    Lec02.calculate_duration face cr years ytm f = some 0 ∧
    Lec02.calculate_convexity face cr years ytm f = some 0 ∧
    Lec02.calculate_bond_price face cr years ytm f = face := by
  refine ⟨?_, ?_, ?_⟩
  · simp [Lec02.calculate_duration, h]
  · simp [Lec02.calculate_convexity, h]
  · simp [Lec02.calculate_bond_price, h]

/-- C10 witness at a concrete matured bond. -/
theorem C10_witness :
    Lec02.calculate_duration 1000 (3/50) (-2) (2/25) 2 = some 0 ∧
    Lec02.calculate_convexity 1000 (3/50) (-2) (2/25) 2 = some 0 ∧
    Lec02.calculate_bond_price 1000 (3/50) (-2) (2/25) 2 = 1000 :=
  C10_matured_bond_degenerate 1000 (3/50) (-2) (2/25) 2 (by norm_num)

/-! ### C9: the two duplicated pricing functions agree outside the band -/

/-- C9: the two copies of `calculate_bond_price` return exactly equal results
whenever `years ≤ 0` or the per-period rate is outside the near-zero band;
inside the band (with `years > 0`) they differ exactly by the discounting of
the face value: lec01 still divides the face by `(1+r)^N` while lec02 leaves
it undiscounted. -/
theorem C9_price_copies_agree (face cr years y : ℚ) (f : ℕ) :
    ((years ≤ 0 ∨ 1/10^12 ≤ |y / (f : ℚ)|) →
      Lec01.calculate_bond_price face cr years y f
        = Lec02.calculate_bond_price face cr years y f) ∧
    (0 < years → |y / (f : ℚ)| < 1/10^12 →
      Lec01.calculate_bond_price face cr years y f
          - Lec02.calculate_bond_price face cr years y f
        = face / (1 + y / (f : ℚ)) ^ nPeriods years f - face) := by
  constructor
  · rintro (h | h)
    · simp [Lec01.calculate_bond_price, Lec02.calculate_bond_price, h]
    · rcases le_or_lt years 0 with hy | hy
      · simp [Lec01.calculate_bond_price, Lec02.calculate_bond_price, hy]
      · have hband : ¬ |y / (f : ℚ)| < 1/10^12 := not_lt.mpr h
        simp only [Lec01.calculate_bond_price, Lec02.calculate_bond_price,
          if_neg (not_le.mpr hy), if_neg hband]
  · intro hy hband
    simp only [Lec01.calculate_bond_price, Lec02.calculate_bond_price,
      if_neg (not_le.mpr hy), if_pos hband]
    ring

/-- C9 witness: equality at a matured bond and at an out-of-band yield, and
the in-band face-discounting difference at yield zero. -/
theorem C9_witness :
    (Lec01.calculate_bond_price 1000 (1/20) (-1) (1/10) 2
      = Lec02.calculate_bond_price 1000 (1/20) (-1) (1/10) 2) ∧
    (Lec01.calculate_bond_price 1000 (1/20) 10 (1/10) 2
      = Lec02.calculate_bond_price 1000 (1/20) 10 (1/10) 2) ∧
    (Lec01.calculate_bond_price 1000 (1/20) 1 0 2
        - Lec02.calculate_bond_price 1000 (1/20) 1 0 2
      = 1000 / (1 + 0 / ((2 : ℕ) : ℚ)) ^ nPeriods 1 2 - 1000) :=
  ⟨(C9_price_copies_agree 1000 (1/20) (-1) (1/10) 2).1 (Or.inl (by norm_num)),
   (C9_price_copies_agree 1000 (1/20) 10 (1/10) 2).1
     (Or.inr (by rw [abs_of_nonneg] <;> norm_num)),
   (C9_price_copies_agree 1000 (1/20) 1 0 2).2 (by norm_num) (by norm_num)⟩

/-! ### C7: NaN sentinels of the yield edge cases -/

/-- C7 counterexample: at `price = -1000`, `face = 1000`, `years = 10 > 0`,
`ytm_approximation` hits a zero denominator `(face + price) / 2` and raises
`ZeroDivisionError` (modelled by `PyResult.exn`), so the claim that the
function never raises and returns its closed-form value for every input with
`years > 0` is false. -/
theorem C7_counterexample :
    (0 : ℚ) < 10 ∧
    Lec01.ytm_approximation (-1000) 1000 (1/20) 10 = PyResult.exn ∧
    PyResult.exn ≠ PyResult.nan := by
  refine ⟨by norm_num, ?_, by decide⟩
  norm_num [Lec01.ytm_approximation]

/-- C7 (amended): `calculate_current_yield` returns the NaN sentinel exactly
when `price = 0` and its closed-form value otherwise; `ytm_approximation`
returns the NaN sentinel exactly when `years ≤ 0`, its closed-form value when
additionally `face + price ≠ 0`, and raises `ZeroDivisionError` when
`years > 0` but `face + price = 0`. -/
theorem C7_nan_sentinels (cr face price years : ℚ) :
    (Lec01.calculate_current_yield cr face price = none ↔ price = 0) ∧
    (price ≠ 0 →
      Lec01.calculate_current_yield cr face price = some (cr * face / price)) ∧
    (Lec01.ytm_approximation price face cr years = PyResult.nan ↔ years ≤ 0) ∧
    (0 < years → face + price ≠ 0 →
      Lec01.ytm_approximation price face cr years
        = PyResult.val ((cr * face + (face - price) / years) / ((face + price) / 2))) ∧
    (0 < years → face + price = 0 →
      Lec01.ytm_approximation price face cr years = PyResult.exn) := by
  have hhalf : (face + price) / 2 = 0 ↔ face + price = 0 := by
    constructor
    · intro h; field_simp at h; exact h
    · intro h; rw [h]; norm_num
  refine ⟨?_, ?_, ?_, ?_, ?_⟩
  · unfold Lec01.calculate_current_yield
    split_ifs with h <;> simp [h]
  · intro h; simp [Lec01.calculate_current_yield, h]
  · unfold Lec01.ytm_approximation
    split_ifs with h h2 <;> simp [h]
  · intro hy hfp
    unfold Lec01.ytm_approximation
    rw [if_neg (not_le.mpr hy), if_neg (fun h => hfp (hhalf.mp h))]
  · intro hy hfp
    unfold Lec01.ytm_approximation
    rw [if_neg (not_le.mpr hy), if_pos (hhalf.mpr hfp)]

/-- C7 witness: the theorem instantiated at concrete regular and degenerate
inputs. -/
theorem C7_witness :
    Lec01.calculate_current_yield (1/20) 1000 950
      = some ((1/20) * 1000 / 950) ∧
    Lec01.ytm_approximation 950 1000 (1/20) 10
      = PyResult.val (((1/20) * 1000 + (1000 - 950) / 10) / ((1000 + 950) / 2)) ∧
    Lec01.ytm_approximation (-500) 500 (1/20) 10 = PyResult.exn :=
  ⟨(C7_nan_sentinels (1/20) 1000 950 10).2.1 (by norm_num),
   (C7_nan_sentinels (1/20) 1000 950 10).2.2.2.1 (by norm_num) (by norm_num),
   (C7_nan_sentinels (1/20) 500 (-500) 10).2.2.2.2 (by norm_num) (by norm_num)⟩

/-! ### C3: pricing at par -/

/-- On the live path, `bond_price_checked` raises exactly at the pole
`1 + ytm/frequency = 0` and otherwise returns the value of
`calculate_bond_price`. -/
theorem Lec01.bond_price_checked_val (face cr years y : ℚ) (f : ℕ)
    (h1 : 1 + y / (f : ℚ) ≠ 0) :
    Lec01.bond_price_checked face cr years y f
      = PyResult.val (Lec01.calculate_bond_price face cr years y f) := by
  unfold Lec01.bond_price_checked
  by_cases hy : years ≤ 0
  · rw [if_pos hy]
    unfold Lec01.calculate_bond_price
    rw [if_pos hy]
  · rw [if_neg hy, if_neg h1]

/-- C3 counterexample: the claim quantifies over every valid BondSpec with
the coupon sign unrestricted, but at couponRate = -frequency (here -200
percent with semiannual compounding) and annual yield equal to the coupon
rate the per-period discount factor is `1 + r = 0`, and Python raises
`ZeroDivisionError` evaluating `(1 + r) ** (-n)` instead of returning the
face value. -/
theorem C3_counterexample :
    (0 : ℚ) < 1 ∧
    (1 : ℚ) + (-2) / ((2 : ℕ) : ℚ) = 0 ∧
    Lec01.bond_price_checked 1000 (-2) 1 (-2) 2 = PyResult.exn ∧
    PyResult.exn ≠ PyResult.val 1000 := by
  refine ⟨by norm_num, by norm_num, ?_, by decide⟩
  unfold Lec01.bond_price_checked
  norm_num

/-- C3 (amended): when the annual yield equals the coupon rate the bond
prices exactly at par and the current yield at that price is exactly the
coupon rate, for every face > 0, frequency ≥ 1, years > 0 and any coupon
rate of either sign whose per-period rate is zero or outside the punctured
near-zero band (inside the band `0 < |couponRate/frequency| < 1e-12` the
code's degenerate branch makes the result only approximately par, the
floating tolerance the spec allows) — except at couponRate = -frequency,
where the per-period discount factor vanishes and the code raises
`ZeroDivisionError` instead of returning the face value. -/
theorem C3_par_or_pole (face cr years : ℚ) (f : ℕ) (hface : 0 < face)
    (hf : 1 ≤ f) (hy : 0 < years)
    (hband : cr = 0 ∨ 1/10^12 ≤ |cr / (f : ℚ)|) :
    (1 + cr / (f : ℚ) ≠ 0 →
      Lec01.bond_price_checked face cr years cr f = PyResult.val face ∧
      Lec01.calculate_bond_price face cr years cr f = face ∧
      Lec01.calculate_current_yield cr face
        (Lec01.calculate_bond_price face cr years cr f) = some cr) ∧
    (1 + cr / (f : ℚ) = 0 →
      Lec01.bond_price_checked face cr years cr f = PyResult.exn) := by
  have hprice : Lec01.calculate_bond_price face cr years cr f = face := by
    rw [Lec01.price_unfold_lec01 face cr years cr f hy]
    rcases hband with h0 | hb
    · subst h0
      norm_num
    · have hr : cr / (f : ℚ) ≠ 0 := by
        intro h
        rw [h] at hb
        norm_num at hb
      rw [if_neg (not_lt.mpr hb)]
      have h2 : face * cr / (f : ℚ) = face * (cr / (f : ℚ)) := by ring
      rw [h2, mul_right_comm face (cr / (f : ℚ))
          (1 - 1 / (1 + cr / (f : ℚ)) ^ nPeriods years f),
        mul_div_cancel_right₀ _ hr]
      ring
  constructor
  · intro h1ne
    refine ⟨?_, hprice, ?_⟩
    · rw [Lec01.bond_price_checked_val face cr years cr f h1ne, hprice]
    · rw [hprice]
      unfold Lec01.calculate_current_yield
      rw [if_neg (ne_of_gt hface)]
      rw [mul_div_assoc, div_self (ne_of_gt hface), mul_one]
  · intro h10
    unfold Lec01.bond_price_checked
    rw [if_neg (not_le.mpr hy), if_pos h10]

/-- C3 witness: exact par pricing at a standard bond, and the
`ZeroDivisionError` at the coupon-rate pole. -/
theorem C3_witness :
    (Lec01.bond_price_checked 1000 (3/50) 10 (3/50) 2 = PyResult.val 1000 ∧
     Lec01.calculate_bond_price 1000 (3/50) 10 (3/50) 2 = 1000 ∧
     Lec01.calculate_current_yield (3/50) 1000
       (Lec01.calculate_bond_price 1000 (3/50) 10 (3/50) 2) = some (3/50)) ∧
    Lec01.bond_price_checked 1000 (-2) 1 (-2) 2 = PyResult.exn :=
  ⟨(C3_par_or_pole 1000 (3/50) 10 2 (by norm_num) (by norm_num) (by norm_num)
      (Or.inr (by rw [abs_of_nonneg] <;> norm_num))).1 (by norm_num),
   (C3_par_or_pole 1000 (-2) 1 2 (by norm_num) (by norm_num) (by norm_num)
      (Or.inr (by rw [abs_of_nonpos] <;> norm_num))).2 (by norm_num)⟩

/-! ### C5: the duration accumulator reproduces the price -/

/-- C5: the total present value accumulated inside lec02's
`calculate_duration` loop equals the price returned by lec02's
`calculate_bond_price` on the same inputs, exactly, including the near-zero
degenerate branch.  The hypothesis `1 + y/f ≠ 0` excludes only the pole
`ytm = -frequency`, where the Python code raises `ZeroDivisionError` in both
functions. -/
theorem C5_total_pv_eq_price (face cr years y : ℚ) (f : ℕ) (hy : 0 < years)
    (h1 : 1 + y / (f : ℚ) ≠ 0) :
    Lec02.duration_total_pv face cr years y f
      = Lec02.calculate_bond_price face cr years y f := by
  have hn : 1 ≤ nPeriods years f := one_le_nPeriods years f
  rw [Lec02.price_unfold_lec02 face cr years y f hy]
  unfold Lec02.duration_total_pv
  by_cases hb : |y / (f : ℚ)| < 1/10^12
  · rw [if_pos hb]
    have hpv : ∀ t ∈ Finset.range (nPeriods years f),
        Lec02.pv (face * cr / f) face (y / f) (nPeriods years f) (t + 1)
          = cashflow (face * cr / f) face (nPeriods years f) (t + 1) := by
      intro t _
      unfold Lec02.pv
      rw [if_pos hb]
    rw [Finset.sum_congr rfl hpv, sum_cashflow_eq _ _ hn]
    ring
  · rw [if_neg hb]
    have hr : y / (f : ℚ) ≠ 0 := by
      intro h
      rw [h] at hb
      norm_num at hb
    have hpv : ∀ t ∈ Finset.range (nPeriods years f),
        Lec02.pv (face * cr / f) face (y / f) (nPeriods years f) (t + 1)
          = cashflow (face * cr / f) face (nPeriods years f) (t + 1)
              / (1 + y / f) ^ (t + 1) := by
      intro t _
      unfold Lec02.pv
      rw [if_neg hb]
    rw [Finset.sum_congr rfl hpv, ← closed_eq_sum _ _ _ hr h1 hn]

/-- C5 witness at a concrete bond, checked in both discounting branches. -/
theorem C5_witness :
    Lec02.duration_total_pv 1000 (3/50) 10 (2/25) 2
      = Lec02.calculate_bond_price 1000 (3/50) 10 (2/25) 2 ∧
    Lec02.duration_total_pv 1000 (3/50) 10 0 2
      = Lec02.calculate_bond_price 1000 (3/50) 10 0 2 :=
  ⟨C5_total_pv_eq_price 1000 (3/50) 10 (2/25) 2 (by norm_num) (by norm_num),
   C5_total_pv_eq_price 1000 (3/50) 10 0 2 (by norm_num) (by norm_num)⟩

/-! ### C6: the concrete lecture scenario -/

attribute [local semireducible] Rat.mul Rat.add Rat.sub Rat.inv

/-- C6 counterexample: for face 1000, coupon 6 percent, 10 years, yield
8 percent, semiannual, the code's Macaulay duration exceeds 7.4 years (its
exact value is about 7.4542) and its modified duration exceeds 7.1 (about
7.1675), so the claimed values of approximately 7.04 and 6.77 are wrong. -/
theorem C6_counterexample :
    Lec01.calculate_duration 1000 (3/50) 10 (2/25) 2
      = some ((Lec01.calculate_duration 1000 (3/50) 10 (2/25) 2).getD 0) ∧
    37/5 < (Lec01.calculate_duration 1000 (3/50) 10 (2/25) 2).getD 0 ∧
    71/10 < Lec01.calculate_modified_duration
      ((Lec01.calculate_duration 1000 (3/50) 10 (2/25) 2).getD 0) (2/25) 2 := by
  decide

/-- C6 (amended): for the concrete input face 1000, coupon rate 0.06,
10 years, annual yield 0.08, frequency 2, the price is approximately 864.10
(a discount bond, price below face), the Macaulay duration is approximately
7.45 years (not 7.04), and the modified duration is approximately 7.17
(not 6.77). -/
theorem C6_concrete_scenario :
    |Lec01.calculate_bond_price 1000 (3/50) 10 (2/25) 2 - 8641/10| < 1/100 ∧
    Lec01.calculate_bond_price 1000 (3/50) 10 (2/25) 2 < 1000 ∧
    Lec01.calculate_duration 1000 (3/50) 10 (2/25) 2
      = some ((Lec01.calculate_duration 1000 (3/50) 10 (2/25) 2).getD 0) ∧
    |(Lec01.calculate_duration 1000 (3/50) 10 (2/25) 2).getD 0 - 149/20| < 1/100 ∧
    |Lec01.calculate_modified_duration
        ((Lec01.calculate_duration 1000 (3/50) 10 (2/25) 2).getD 0) (2/25) 2
      - 717/100| < 1/100 := by
  decide

/-! ### C8: the immunization optimizer has no infeasibility report -/

set_option maxRecDepth 10000 in
/-- C8 counterexample: with liability 10000 due in 5.5 years, a zero-coupon
candidate bond and current yield -400 percent (all enterable in the UI), the
selected maturity is 5.5 years and the bond price there is -1000, which is
not positive; yet the optimizer still produces its ordinary strategy output
(selected maturity 5.5, duration 5.5, price -1000) with NaN sentinels for the
bond count and projected investment, instead of any explicit "no feasible
maturity" outcome — no such outcome exists in the code. -/
theorem C8_counterexample :
    Lec02.show_immunization 10000 (11/2) 0 (-4)
      = some ⟨11/2, 11/2, -1000, none, none, none⟩ ∧
    ((-1000 : ℚ) ≤ 0) := by
  constructor
  · decide
  · norm_num

/-- C8 (amended): whenever the maturity search returns a strategy whose
bond price at the selected maturity is not positive, the optimizer silently
reports NaN sentinels for the number of bonds and the projected total
investment inside its ordinary strategy output; it never produces an explicit
"no feasible maturity" report (and when every candidate duration is NaN the
`nanargmin` selection raises, modelled by the overall `none`). -/
theorem C8_no_feasibility_report (liab ly coupon ytm : ℚ)
    (s : Lec02.ImmunizationStrategy)
    (h : Lec02.show_immunization liab ly coupon ytm = some s)
    (hp : s.bond_price ≤ 0) :
    s.num_bonds = none ∧ s.total_investment = none := by
  unfold Lec02.show_immunization at h
  cases hidx : Lec02.closest_maturity_idx ly coupon ytm with
  | none =>
    rw [hidx] at h
    exact absurd h (by simp)
  | some i =>
    rw [hidx] at h
    have h2 : some (Lec02.strategy_at liab ly coupon ytm i) = some s := h
    obtain rfl := (Option.some.inj h2).symm
    simp only [Lec02.strategy_at] at hp ⊢
    rw [if_neg (not_lt.mpr hp)]
    simp

set_option maxRecDepth 10000 in
/-- C8 witness: the amended theorem applied at the concrete infeasible
scenario. -/
theorem C8_witness :
    (⟨11/2, 11/2, -1000, none, none, none⟩ : Lec02.ImmunizationStrategy).num_bonds
        = none ∧
    (⟨11/2, 11/2, -1000, none, none, none⟩ : Lec02.ImmunizationStrategy).total_investment
        = none :=
  C8_no_feasibility_report 10000 (11/2) 0 (-4)
    ⟨11/2, 11/2, -1000, none, none, none⟩ (by decide) (by norm_num)

/-! ### C2: strict monotonicity of the price-yield curve -/

theorem cashflow_nonneg (c face : ℚ) (n t : ℕ) (hc : 0 ≤ c) (hface : 0 ≤ face) :
    0 ≤ cashflow c face n t := by
  unfold cashflow
  split_ifs <;> simp [hc, hface, add_nonneg]

theorem cashflow_last (c face : ℚ) (n : ℕ) : cashflow c face n n = c + face := by
  simp [cashflow]

/-- The discounted cash-flow sum is strictly antitone in the per-period
rate, on the domain where discount factors are positive. -/
theorem sum_cashflow_div_lt (c face : ℚ) {n : ℕ} (hn : 1 ≤ n) (hc : 0 ≤ c)
    (hface : 0 < face) {r1 r2 : ℚ} (h1 : 0 < 1 + r1) (h12 : r1 < r2) :
    ∑ t ∈ Finset.range n, cashflow c face n (t + 1) / (1 + r2) ^ (t + 1)
      < ∑ t ∈ Finset.range n, cashflow c face n (t + 1) / (1 + r1) ^ (t + 1) := by
  have h2 : (0 : ℚ) < 1 + r2 := by linarith
  apply Finset.sum_lt_sum
  · intro t _
    have hp1 : (0 : ℚ) < (1 + r1) ^ (t + 1) := pow_pos h1 _
    have hple : (1 + r1) ^ (t + 1) ≤ (1 + r2) ^ (t + 1) :=
      pow_le_pow_left₀ h1.le (by linarith) _
    exact div_le_div_of_nonneg_left (cashflow_nonneg c face n (t + 1) hc hface.le)
      hp1 hple
  · refine ⟨n - 1, by simp [Finset.mem_range]; omega, ?_⟩
    have hidx : n - 1 + 1 = n := by omega
    rw [hidx, cashflow_last]
    have hp1 : (0 : ℚ) < (1 + r1) ^ n := pow_pos h1 _
    have hplt : (1 + r1) ^ n < (1 + r2) ^ n :=
      pow_lt_pow_left₀ (by linarith) h1.le (by omega)
    exact div_lt_div_of_pos_left (by linarith) hp1 hplt

/-- With a nonnegative per-period rate, the discounted coupon stream is worth
at most `n` undiscounted coupons. -/
theorem coupon_sum_le (c : ℚ) (hc : 0 ≤ c) {r : ℚ} (hr : 0 ≤ r) (n : ℕ) :
    ∑ t ∈ Finset.range n, c / (1 + r) ^ (t + 1) ≤ (n : ℚ) * c := by
  calc ∑ t ∈ Finset.range n, c / (1 + r) ^ (t + 1)
      ≤ ∑ _t ∈ Finset.range n, c := by
        apply Finset.sum_le_sum
        intro t _
        exact div_le_self hc (one_le_pow₀ (by linarith))
    _ = (n : ℚ) * c := by
        rw [Finset.sum_const, Finset.card_range, nsmul_eq_mul]

/-- With a nonpositive per-period rate (and positive discount factor), the
discounted coupon stream is worth at least `n` undiscounted coupons. -/
theorem coupon_sum_ge (c : ℚ) (hc : 0 ≤ c) {r : ℚ} (h0 : 0 < 1 + r)
    (hr : r ≤ 0) (n : ℕ) :
    (n : ℚ) * c ≤ ∑ t ∈ Finset.range n, c / (1 + r) ^ (t + 1) := by
  calc (n : ℚ) * c
      = ∑ _t ∈ Finset.range n, c := by
        rw [Finset.sum_const, Finset.card_range, nsmul_eq_mul]
    _ ≤ ∑ t ∈ Finset.range n, c / (1 + r) ^ (t + 1) := by
        apply Finset.sum_le_sum
        intro t _
        exact le_div_self hc (pow_pos h0 _) (pow_le_one₀ h0.le (by linarith))

/-- C2 counterexample: the claim quantifies over all yields, but for face
1000, coupon 0, half a year to maturity, the price at annual yield -400
percent is -1000, strictly below the price 1000 at annual yield 0, so the
price is not strictly decreasing on all of the claimed domain (the discount
factor 1 + y/f turns negative below y = -200 percent). -/
theorem C2_counterexample :
    (-4 : ℚ) < 0 ∧
    Lec01.calculate_bond_price 1000 0 (1/2) (-4) 2
      < Lec01.calculate_bond_price 1000 0 (1/2) 0 2 := by
  constructor
  · norm_num
  · decide

/-- C2 (amended): for a valid bond (positive face, nonnegative coupon,
frequency at least 1, positive maturity) the lec01 price is strictly
decreasing in the annual yield on the whole domain where the per-period
discount factor stays positive (1 + y/f > 0); the lec02 copy is strictly
decreasing there to whenever neither per-period rate falls in the near-zero
band (inside that band its price is locally constant in the yield). -/
theorem C2_price_strictly_decreasing (face cr years y1 y2 : ℚ) (f : ℕ)
    (hface : 0 < face) (hcr : 0 ≤ cr) (hf : 1 ≤ f) (hy : 0 < years)
    (h12 : y1 < y2) (h1 : 0 < 1 + y1 / (f : ℚ)) :
    Lec01.calculate_bond_price face cr years y2 f
      < Lec01.calculate_bond_price face cr years y1 f ∧
    (1/10^12 ≤ |y1 / (f : ℚ)| → 1/10^12 ≤ |y2 / (f : ℚ)| →
      Lec02.calculate_bond_price face cr years y2 f
        < Lec02.calculate_bond_price face cr years y1 f) := by
  have hf0 : (0 : ℚ) < f := by exact_mod_cast Nat.lt_of_lt_of_le Nat.zero_lt_one hf
  have hr12 : y1 / (f : ℚ) < y2 / (f : ℚ) := by gcongr
  have h2 : (0 : ℚ) < 1 + y2 / (f : ℚ)  := by linarith
  have hc : (0 : ℚ) ≤ face * cr / f := by positivity
  have hn : 1 ≤ nPeriods years f := one_le_nPeriods years f
  have hne : nPeriods years f ≠ 0 := by omega
  have hpow1 : (0 : ℚ) < (1 + y1 / (f : ℚ)) ^ nPeriods years f := pow_pos h1 _
  have hpowlt : (1 + y1 / (f : ℚ)) ^ nPeriods years f
      < (1 + y2 / (f : ℚ)) ^ nPeriods years f :=
    pow_lt_pow_left₀ (by linarith) h1.le hne
  have hface_lt : face / (1 + y2 / (f : ℚ)) ^ nPeriods years f
      < face / (1 + y1 / (f : ℚ)) ^ nPeriods years f :=
    div_lt_div_of_pos_left hface hpow1 hpowlt
  have hcn : ((nPeriods years f : ℚ)) * (face * cr / f)
      = face * cr / f * (nPeriods years f : ℚ) := mul_comm _ _
  constructor
  · rw [Lec01.price_unfold_lec01 face cr years y1 f hy,
      Lec01.price_unfold_lec01 face cr years y2 f hy]
    by_cases hb1 : |y1 / (f : ℚ)| < 1/10^12 <;>
      by_cases hb2 : |y2 / (f : ℚ)| < 1/10^12
    · rw [if_pos hb1, if_pos hb2]
      linarith
    · -- r1 in the band, r2 out: r2 must be positive
      have hr2pos : 1/10^12 ≤ y2 / (f : ℚ) := by
        have habs := not_lt.mp hb2
        rcases abs_cases (y2 / (f : ℚ)) with ⟨heq, _⟩ | ⟨heq, _⟩
        · rwa [heq] at habs
        · exfalso
          have h1' := (abs_lt.mp hb1).1
          rw [heq] at habs
          linarith
      rw [if_pos hb1, if_neg hb2]
      have hr2ne : y2 / (f : ℚ) ≠ 0 := by
        intro h; rw [h] at hr2pos; norm_num at hr2pos
      rw [closed_eq_sum (face * cr / f) face (y2 / f) hr2ne (ne_of_gt h2) hn,
        sum_split (face * cr / f) face (y2 / f) hn]
      have hcoup := coupon_sum_le (face * cr / f) hc
        (le_trans (by norm_num) hr2pos) (nPeriods years f)
      linarith
    · -- r1 out of the band, r2 in: r1 must be negative
      have hr1neg : y1 / (f : ℚ) ≤ -(1/10^12) := by
        have habs := not_lt.mp hb1
        rcases abs_cases (y1 / (f : ℚ)) with ⟨heq, _⟩ | ⟨heq, _⟩
        · exfalso
          have h2' := (abs_lt.mp hb2).2
          rw [heq] at habs
          linarith
        · rw [heq] at habs
          linarith
      rw [if_neg hb1, if_pos hb2]
      have hr1ne : y1 / (f : ℚ) ≠ 0 := by
        intro h; rw [h] at hr1neg; norm_num at hr1neg
      rw [closed_eq_sum (face * cr / f) face (y1 / f) hr1ne (ne_of_gt h1) hn,
        sum_split (face * cr / f) face (y1 / f) hn]
      have hcoup := coupon_sum_ge (face * cr / f) hc h1
        (by linarith : y1 / (f : ℚ) ≤ 0) (nPeriods years f)
      linarith
    · -- both out of the band
      have hr1ne : y1 / (f : ℚ) ≠ 0 := by
        intro h; rw [h] at hb1; norm_num at hb1
      have hr2ne : y2 / (f : ℚ) ≠ 0 := by
        intro h; rw [h] at hb2; norm_num at hb2
      rw [if_neg hb1, if_neg hb2,
        closed_eq_sum (face * cr / f) face (y1 / f) hr1ne (ne_of_gt h1) hn,
        closed_eq_sum (face * cr / f) face (y2 / f) hr2ne (ne_of_gt h2) hn]
      exact sum_cashflow_div_lt (face * cr / f) face hn hc hface h1 hr12
  · intro hob1 hob2
    have hr1ne : y1 / (f : ℚ) ≠ 0 := by
      intro h; rw [h] at hob1; norm_num at hob1
    have hr2ne : y2 / (f : ℚ) ≠ 0 := by
      intro h; rw [h] at hob2; norm_num at hob2
    rw [Lec02.price_unfold_lec02 face cr years y1 f hy,
      Lec02.price_unfold_lec02 face cr years y2 f hy,
      if_neg (not_lt.mpr hob1), if_neg (not_lt.mpr hob2),
      closed_eq_sum (face * cr / f) face (y1 / f) hr1ne (ne_of_gt h1) hn,
      closed_eq_sum (face * cr / f) face (y2 / f) hr2ne (ne_of_gt h2) hn]
    exact sum_cashflow_div_lt (face * cr / f) face hn hc hface h1 hr12

/-- C2 witness: strict decrease at a concrete pair of yields, in both
implementations. -/
theorem C2_witness :
    Lec01.calculate_bond_price 1000 (1/20) 10 (1/10) 2
      < Lec01.calculate_bond_price 1000 (1/20) 10 (1/20) 2 ∧
    Lec02.calculate_bond_price 1000 (1/20) 10 (1/10) 2
      < Lec02.calculate_bond_price 1000 (1/20) 10 (1/20) 2 :=
  ⟨(C2_price_strictly_decreasing 1000 (1/20) 10 (1/20) (1/10) 2 (by norm_num)
      (by norm_num) (by norm_num) (by norm_num) (by norm_num) (by norm_num)).1,
   (C2_price_strictly_decreasing 1000 (1/20) 10 (1/20) (1/10) 2 (by norm_num)
      (by norm_num) (by norm_num) (by norm_num) (by norm_num) (by norm_num)).2
      (by rw [abs_of_nonneg] <;> norm_num)
      (by rw [abs_of_nonneg] <;> norm_num)⟩

/-! ### C4: Macaulay duration bounds -/

theorem pyRound_intCast (k : ℤ) : pyRound (k : ℚ) = k := by
  unfold pyRound
  rw [Int.floor_intCast, sub_self]
  norm_num

/-- Unfolding of lec01's `calculate_duration` through its accumulator sums. -/
theorem Lec01.duration_eq (face cr years y : ℚ) (f : ℕ) :
    Lec01.calculate_duration face cr years y f =
      if (∑ t ∈ Finset.range (nPeriods years f),
            Lec01.pv (face * cr / f) face (y / f) (nPeriods years f) (t + 1)) = 0
      then none
      else some
        ((∑ t ∈ Finset.range (nPeriods years f),
            ((t + 1 : ℚ) / f) *
              Lec01.pv (face * cr / f) face (y / f) (nPeriods years f) (t + 1)) /
         (∑ t ∈ Finset.range (nPeriods years f),
            Lec01.pv (face * cr / f) face (y / f) (nPeriods years f) (t + 1))) := by
  unfold Lec01.calculate_duration
  rfl

theorem Lec01.pv_nonneg {c face r : ℚ} (hc : 0 ≤ c) (hface : 0 ≤ face)
    (h1 : 0 < 1 + r) (n t : ℕ) : 0 ≤ Lec01.pv c face r n t := by
  unfold Lec01.pv
  have := cashflow_nonneg c face n t hc hface
  split_ifs
  · exact div_nonneg this (pow_pos h1 t).le
  · exact this

theorem Lec01.pv_pos {c face r : ℚ} (h : 0 < cashflow c face n t)
    (h1 : 0 < 1 + r) : 0 < Lec01.pv c face r n t := by
  unfold Lec01.pv
  split_ifs
  · exact div_pos h (pow_pos h1 t)
  · exact h

/-- C4 counterexample, three failure modes of the claim as frozen.
First, for a zero-coupon bond with 0.8 years to maturity and semiannual
compounding the schedule is rounded to `n = round(1.6) = 2` periods, so the
Macaulay duration is 1.0 year, strictly greater than the 0.8 years to
maturity; the claimed bound `duration ≤ years` and the claimed equality
`duration = years` for zero-coupon bonds both fail.
Second, with a negative per-period discount factor (face 1000, coupon 10
percent, 2 years, annual, yield -300 percent) the duration is 20/9 > 2
years, breaking the bound even at a whole-period maturity; third, a
negative coupon (-10 percent at yield 10 percent, annual) gives 169/79 > 2
years.  These force the amendment's hypotheses couponRate ≥ 0 and
1 + ytm/frequency > 0. -/
theorem C4_counterexample :
    (Lec01.calculate_duration 1000 0 (4/5) (1/20) 2 = some 1 ∧
     ¬ ((1 : ℚ) ≤ 4/5)) ∧
    (Lec01.calculate_duration 1000 (1/10) 2 (-3) 1 = some (20/9) ∧
     ¬ ((20/9 : ℚ) ≤ 2) ∧ nPeriods 2 1 = 2) ∧
    (Lec01.calculate_duration 1000 (-(1/10)) 2 (1/10) 1 = some (169/79) ∧
     ¬ ((169/79 : ℚ) ≤ 2)) := by
  refine ⟨⟨by decide, by norm_num⟩, ⟨by decide, by norm_num, by decide⟩,
    by decide, by norm_num⟩

/-- C4 (amended): for a bond with face > 0, coupon rate ≥ 0, frequency ≥ 1,
years > 0 and a positive per-period discount factor (1 + ytm/frequency > 0),
the Macaulay duration `D` satisfies `0 < D ≤ N/frequency`, where
`N = max(round(years*frequency), 1)` is the rounded schedule length the code
actually uses, with equality exactly when the schedule has a single dated
cash flow (coupon rate zero, or a single period); when `years*frequency` is
a whole number `N/frequency = years` and the spec's original bound
`D ≤ years` holds.  (Without `couponRate ≥ 0` or with a nonpositive
discount factor the bound fails, as the counterexample shows.) -/
theorem C4_duration_bounds (face cr years y : ℚ) (f : ℕ)
    (hface : 0 < face) (hcr : 0 ≤ cr) (hf : 1 ≤ f) (hy : 0 < years)
    (h1 : 0 < 1 + y / (f : ℚ)) (D : ℚ)
    (hD : Lec01.calculate_duration face cr years y f = some D) :
    0 < D ∧ D ≤ (nPeriods years f : ℚ) / f ∧
    (D = (nPeriods years f : ℚ) / f ↔ (cr = 0 ∨ nPeriods years f = 1)) ∧
    ((years * (f : ℚ)).den = 1 → D ≤ years) := by
  have hf0 : (0 : ℚ) < f := by exact_mod_cast Nat.lt_of_lt_of_le Nat.zero_lt_one hf
  have hc : (0 : ℚ) ≤ face * cr / f := by positivity
  have hn : 1 ≤ nPeriods years f := one_le_nPeriods years f
  rw [Lec01.duration_eq] at hD
  set T := ∑ t ∈ Finset.range (nPeriods years f),
      Lec01.pv (face * cr / f) face (y / f) (nPeriods years f) (t + 1) with hTdef
  set W := ∑ t ∈ Finset.range (nPeriods years f),
      ((t + 1 : ℚ) / f) *
        Lec01.pv (face * cr / f) face (y / f) (nPeriods years f) (t + 1) with hWdef
  by_cases htot : T = 0
  · rw [if_pos htot] at hD
    exact absurd hD (by simp)
  rw [if_neg htot] at hD
  have hDval := (Option.some.inj hD).symm
  have hmem : nPeriods years f - 1 ∈ Finset.range (nPeriods years f) := by
    simp only [Finset.mem_range]; omega
  have hidx : nPeriods years f - 1 + 1 = nPeriods years f := by omega
  have hlastpos : 0 < Lec01.pv (face * cr / f) face (y / f) (nPeriods years f)
      (nPeriods years f - 1 + 1) := by
    rw [hidx]
    exact Lec01.pv_pos (by rw [cashflow_last]; positivity) h1
  have htotpos : 0 < T := by
    rw [hTdef]
    apply Finset.sum_pos'
    · intro t _
      exact Lec01.pv_nonneg hc hface.le h1 _ _
    · exact ⟨nPeriods years f - 1, hmem, hlastpos⟩
  have hWpos : 0 < W := by
    rw [hWdef]
    apply Finset.sum_pos'
    · intro t _
      exact mul_nonneg (by positivity) (Lec01.pv_nonneg hc hface.le h1 _ _)
    · refine ⟨nPeriods years f - 1, hmem, ?_⟩
      apply mul_pos _ hlastpos
      positivity
  have hWle : W ≤ ((nPeriods years f : ℚ) / f) * T := by
    rw [hWdef, hTdef, Finset.mul_sum]
    apply Finset.sum_le_sum
    intro t ht
    have htn : (t + 1 : ℚ) ≤ (nPeriods years f : ℚ) := by
      exact_mod_cast Nat.succ_le_of_lt (Finset.mem_range.mp ht)
    apply mul_le_mul_of_nonneg_right _ (Lec01.pv_nonneg hc hface.le h1 _ _)
    exact (div_le_div_right hf0).mpr htn
  have hDpos : 0 < D := by
    rw [hDval]
    exact div_pos hWpos htotpos
  have hDle : D ≤ (nPeriods years f : ℚ) / f := by
    rw [hDval, div_le_iff htotpos]
    exact hWle
  refine ⟨hDpos, hDle, ⟨?_, ?_⟩, ?_⟩
  · -- equality forces a single dated cash flow
    intro heq
    by_contra hcon
    push_neg at hcon
    obtain ⟨hcr0, hn1⟩ := hcon
    have hn2 : 2 ≤ nPeriods years f := by omega
    have hcrpos : 0 < cr := lt_of_le_of_ne hcr (Ne.symm hcr0)
    have hpv1 : 0 < Lec01.pv (face * cr / f) face (y / f) (nPeriods years f) (0 + 1) := by
      apply Lec01.pv_pos _ h1
      unfold cashflow
      rw [if_neg (by omega)]
      positivity
    have hWlt : W < ((nPeriods years f : ℚ) / f) * T := by
      rw [hWdef, hTdef, Finset.mul_sum]
      apply Finset.sum_lt_sum
      · intro t ht
        have htn : (t + 1 : ℚ) ≤ (nPeriods years f : ℚ) := by
          exact_mod_cast Nat.succ_le_of_lt (Finset.mem_range.mp ht)
        apply mul_le_mul_of_nonneg_right _ (Lec01.pv_nonneg hc hface.le h1 _ _)
        exact (div_le_div_right hf0).mpr htn
      · refine ⟨0, by simp only [Finset.mem_range]; omega, ?_⟩
        apply mul_lt_mul_of_pos_right _ hpv1
        have h1n : (0 + 1 : ℚ) < (nPeriods years f : ℚ) := by
          norm_num
          exact_mod_cast hn2
        exact (div_lt_div_right hf0).mpr h1n
    have : D < (nPeriods years f : ℚ) / f := by
      rw [hDval, div_lt_iff htotpos]
      exact hWlt
    exact absurd heq (ne_of_lt this)
  · -- a single dated cash flow gives equality
    intro hor
    have hWeq : W = ((nPeriods years f : ℚ) / f) * T := by
      rw [hWdef, hTdef, Finset.mul_sum]
      apply Finset.sum_congr rfl
      intro t ht
      rcases hor with h0 | hone
      · by_cases hlast : t + 1 = nPeriods years f
        · have hcast : ((t : ℚ) + 1) = (nPeriods years f : ℚ) := by
            exact_mod_cast hlast
          rw [hlast, hcast]
        · have hcf : cashflow (face * cr / f) face (nPeriods years f) (t + 1) = 0 := by
            unfold cashflow
            rw [if_neg hlast, h0]
            ring
          have hpv0 : Lec01.pv (face * cr / f) face (y / f) (nPeriods years f) (t + 1) = 0 := by
            unfold Lec01.pv
            rw [hcf]
            split_ifs <;> simp
          rw [hpv0]
          ring
      · have ht0 : t = 0 := by
          have := Finset.mem_range.mp ht
          omega
        rw [ht0, hone]
        push_cast
        ring
    rw [hDval, hWeq, mul_div_assoc, div_self (ne_of_gt htotpos), mul_one]
  · -- when years * frequency is whole, the original bound holds
    intro hden
    have hq : (((years * (f : ℚ)).num : ℚ)) = years * f := by
      conv_rhs => rw [← Rat.num_div_den (years * (f : ℚ))]
      rw [hden]
      norm_num
    have hpos : 0 < (years * (f : ℚ)).num := by
      by_contra h
      push_neg at h
      have h2 : (((years * (f : ℚ)).num : ℚ)) ≤ 0 := by exact_mod_cast h
      rw [hq] at h2
      nlinarith
    have hnval : nPeriods years f = (years * (f : ℚ)).num.toNat := by
      have hpr : pyRound (years * (f : ℚ)) = (years * (f : ℚ)).num := by
        conv_lhs => rw [show years * (f : ℚ) = (((years * (f : ℚ)).num : ℚ)) from hq.symm]
        exact pyRound_intCast _
      unfold nPeriods
      rw [hpr]
      omega
    have hcast : ((nPeriods years f : ℚ)) = years * f := by
      rw [hnval, show ((((years * (f : ℚ)).num.toNat : ℕ)) : ℚ)
          = (((years * (f : ℚ)).num : ℚ)) from by
        exact_mod_cast congrArg Int.cast (Int.toNat_of_nonneg hpos.le), hq]
    have hnf : (nPeriods years f : ℚ) / f = years := by
      rw [hcast]
      field_simp
    rw [← hnf]
    exact hDle

/-- C4 witness: the bounds at a concrete one-year semiannual coupon bond. -/
theorem C4_witness :
    0 < (Lec01.calculate_duration 100 (1/10) 1 (1/10) 2).getD 0 ∧
    (Lec01.calculate_duration 100 (1/10) 1 (1/10) 2).getD 0
      ≤ (nPeriods 1 2 : ℚ) / ((2 : ℕ) : ℚ) ∧
    ((Lec01.calculate_duration 100 (1/10) 1 (1/10) 2).getD 0
        = (nPeriods 1 2 : ℚ) / ((2 : ℕ) : ℚ)
      ↔ ((1 : ℚ)/10 = 0 ∨ nPeriods 1 2 = 1)) ∧
    (((1 : ℚ) * ((2 : ℕ) : ℚ)).den = 1 →
      (Lec01.calculate_duration 100 (1/10) 1 (1/10) 2).getD 0 ≤ 1) :=
  C4_duration_bounds 100 (1/10) 1 (1/10) 2 (by norm_num) (by norm_num)
    (by norm_num) (by norm_num) (by norm_num)
    ((Lec01.calculate_duration 100 (1/10) 1 (1/10) 2).getD 0) (by decide)

/-! ### C1: second-order versus first-order price-change estimates -/

/-- Taylor bound: a discount factor dominates its second-order expansion,
in product form.  For `0 ≤ u < 1` and every `t`,
`(1-u)^t (1 + t u + t(t+1)/2 u²) ≤ 1`. -/
theorem taylor_pow_bound (u : ℚ) (hu0 : 0 ≤ u) (hu1 : u < 1) :
    ∀ t : ℕ, (1 - u) ^ t * (1 + (t : ℚ) * u + (t : ℚ) * ((t : ℚ) + 1) / 2 * u ^ 2) ≤ 1 := by
  intro t
  induction t with
  | zero => norm_num
  | succ t ih =>
    have h1u : (0 : ℚ) ≤ 1 - u := by linarith
    have hu3 : 0 ≤ u * u * u := by positivity
    have ht0 : (0 : ℚ) ≤ (t : ℚ) := Nat.cast_nonneg t
    have hstep : (1 - u) * (1 + ((t : ℚ) + 1) * u + ((t : ℚ) + 1) * (((t : ℚ) + 1) + 1) / 2 * u ^ 2)
        ≤ 1 + (t : ℚ) * u + (t : ℚ) * ((t : ℚ) + 1) / 2 * u ^ 2 := by
      nlinarith [mul_nonneg (mul_nonneg hu0 hu0) hu0, mul_nonneg ht0 hu3,
        mul_nonneg (mul_nonneg ht0 ht0) hu3]
    calc (1 - u) ^ (t + 1) * (1 + ((t + 1 : ℕ) : ℚ) * u
            + ((t + 1 : ℕ) : ℚ) * (((t + 1 : ℕ) : ℚ) + 1) / 2 * u ^ 2)
        = (1 - u) ^ t * ((1 - u) * (1 + ((t : ℚ) + 1) * u
            + ((t : ℚ) + 1) * (((t : ℚ) + 1) + 1) / 2 * u ^ 2)) := by
          push_cast
          ring
      _ ≤ (1 - u) ^ t * (1 + (t : ℚ) * u + (t : ℚ) * ((t : ℚ) + 1) / 2 * u ^ 2) :=
          mul_le_mul_of_nonneg_left hstep (pow_nonneg h1u t)
      _ ≤ 1 := ih

/-- Taylor bound for inverse powers: for `0 < x ≤ yv`, the second-order
expansion of `x ↦ x^{-t}` around `yv` underestimates it. -/
theorem taylor_inverse_pow_bound (x yv : ℚ) (hx : 0 < x) (hxy : x ≤ yv) (t : ℕ) :
    1 / yv ^ t + (t : ℚ) * (yv - x) / yv ^ (t + 1)
        + (t : ℚ) * ((t : ℚ) + 1) / 2 * (yv - x) ^ 2 / yv ^ (t + 2)
      ≤ 1 / x ^ t := by
  have hy : 0 < yv := lt_of_lt_of_le hx hxy
  have hyne : yv ≠ 0 := ne_of_gt hy
  have hu0 : 0 ≤ (yv - x) / yv := div_nonneg (by linarith) hy.le
  have hu1 : (yv - x) / yv < 1 := by
    rw [div_lt_one hy]
    linarith
  have h1u : 1 - (yv - x) / yv = x / yv := by
    field_simp
  have hb := taylor_pow_bound ((yv - x) / yv) hu0 hu1 t
  rw [h1u, div_pow] at hb
  have hxt : (0 : ℚ) < x ^ t := pow_pos hx t
  have hyt : (0 : ℚ) < yv ^ t := pow_pos hy t
  have hE : 1 / yv ^ t + (t : ℚ) * (yv - x) / yv ^ (t + 1)
      + (t : ℚ) * ((t : ℚ) + 1) / 2 * (yv - x) ^ 2 / yv ^ (t + 2)
      = (1 + (t : ℚ) * ((yv - x) / yv) + (t : ℚ) * ((t : ℚ) + 1) / 2 * ((yv - x) / yv) ^ 2)
          / yv ^ t := by
    field_simp
    ring
  rw [hE, div_le_div_iff hyt hxt]
  have h2 := mul_le_mul_of_nonneg_right hb hyt.le
  calc (1 + (t : ℚ) * ((yv - x) / yv)
          + (t : ℚ) * ((t : ℚ) + 1) / 2 * ((yv - x) / yv) ^ 2) * x ^ t
      = x ^ t / yv ^ t * (1 + (t : ℚ) * ((yv - x) / yv)
          + (t : ℚ) * ((t : ℚ) + 1) / 2 * ((yv - x) / yv) ^ 2) * yv ^ t := by
        field_simp
        ring
    _ ≤ 1 * yv ^ t := h2
    _ = 1 * yv ^ t := rfl

/-- Present value of the cash-flow schedule at per-period rate `r` (the sum
the duration loop accumulates as `total_pv`). -/
def schedulePV (c face r : ℚ) (n : ℕ) : ℚ :=
  ∑ t ∈ Finset.range n, cashflow c face n (t + 1) / (1 + r) ^ (t + 1)

/-- First-order sensitivity sum of the schedule. -/
def scheduleS1 (c face r : ℚ) (n : ℕ) : ℚ :=
  ∑ t ∈ Finset.range n, ((t : ℚ) + 1) * cashflow c face n (t + 1) / (1 + r) ^ (t + 2)

/-- Second-order sensitivity sum of the schedule. -/
def scheduleS2 (c face r : ℚ) (n : ℕ) : ℚ :=
  ∑ t ∈ Finset.range n,
    ((t : ℚ) + 1) * ((t : ℚ) + 2) * cashflow c face n (t + 1) / (1 + r) ^ (t + 3)

theorem schedulePV_pos (c face : ℚ) {n : ℕ} (hn : 1 ≤ n) (hc : 0 ≤ c)
    (hface : 0 < face) {r : ℚ} (h1 : 0 < 1 + r) : 0 < schedulePV c face r n := by
  unfold schedulePV
  apply Finset.sum_pos'
  · intro t _
    exact div_nonneg (cashflow_nonneg c face n (t + 1) hc hface.le) (pow_pos h1 _).le
  · refine ⟨n - 1, by simp only [Finset.mem_range]; omega, ?_⟩
    have hidx : n - 1 + 1 = n := by omega
    rw [hidx, cashflow_last]
    exact div_pos (by linarith) (pow_pos h1 _)

theorem scheduleS2_nonneg (c face : ℚ) (n : ℕ) (hc : 0 ≤ c) (hface : 0 ≤ face)
    {r : ℚ} (h1 : 0 < 1 + r) : 0 ≤ scheduleS2 c face r n := by
  unfold scheduleS2
  apply Finset.sum_nonneg
  intro t _
  apply div_nonneg _ (pow_pos h1 _).le
  have := cashflow_nonneg c face n (t + 1) hc hface
  positivity

/-- The second-order expansion of the schedule PV around rate `r`
underestimates the PV at any lower rate `r'` (with positive discount
factors): summed Taylor domination. -/
theorem second_order_dominates (c face : ℚ) {n : ℕ} (hn : 1 ≤ n) (hc : 0 ≤ c)
    (hface : 0 < face) {r r' : ℚ} (h1 : 0 < 1 + r) (h1' : 0 < 1 + r')
    (hrr : r' ≤ r) :
    schedulePV c face r n + (r - r') * scheduleS1 c face r n
        + (r - r') ^ 2 / 2 * scheduleS2 c face r n
      ≤ schedulePV c face r' n := by
  unfold schedulePV scheduleS1 scheduleS2
  rw [Finset.mul_sum, Finset.mul_sum, ← Finset.sum_add_distrib, ← Finset.sum_add_distrib]
  apply Finset.sum_le_sum
  intro t _
  have hptb := taylor_inverse_pow_bound (1 + r') (1 + r) h1' (by linarith) (t + 1)
  have hcf := cashflow_nonneg c face n (t + 1) hc hface.le
  calc cashflow c face n (t + 1) / (1 + r) ^ (t + 1)
        + (r - r') * (((t : ℚ) + 1) * cashflow c face n (t + 1) / (1 + r) ^ (t + 2))
        + (r - r') ^ 2 / 2
            * (((t : ℚ) + 1) * ((t : ℚ) + 2) * cashflow c face n (t + 1) / (1 + r) ^ (t + 3))
      = cashflow c face n (t + 1) * (1 / (1 + r) ^ (t + 1)
          + ((t + 1 : ℕ) : ℚ) * ((1 + r) - (1 + r')) / (1 + r) ^ (t + 1 + 1)
          + ((t + 1 : ℕ) : ℚ) * (((t + 1 : ℕ) : ℚ) + 1) / 2 * ((1 + r) - (1 + r')) ^ 2
              / (1 + r) ^ (t + 1 + 2)) := by
        push_cast
        ring
    _ ≤ cashflow c face n (t + 1) * (1 / (1 + r') ^ (t + 1)) :=
        mul_le_mul_of_nonneg_left hptb hcf
    _ = cashflow c face n (t + 1) / (1 + r') ^ (t + 1) := by
        rw [mul_one_div]

/-- Unfolding of lec01's `calculate_convexity` through its accumulator sum. -/
theorem Lec01.convexity_eq (face cr years y : ℚ) (f : ℕ) :
    Lec01.calculate_convexity face cr years y f =
      if Lec01.calculate_bond_price face cr years y f = 0 then none
      else some
        ((∑ t ∈ Finset.range (nPeriods years f),
            Lec01.pv (face * cr / f) face (y / f) (nPeriods years f) (t + 1)
              * ((t : ℚ) + 1) * ((t : ℚ) + 2))
          / (Lec01.calculate_bond_price face cr years y f
              * (1 + y / (f : ℚ)) ^ 2 * (f : ℚ) ^ 2)) := by
  unfold Lec01.calculate_convexity
  rfl

/-- Outside the near-zero band (or exactly at rate zero), lec01's price is
the discounted cash-flow sum. -/
theorem Lec01.price_eq_schedulePV (face cr years y : ℚ) (f : ℕ) (hy : 0 < years)
    (hband : 1/10^12 ≤ |y / (f : ℚ)| ∨ y / (f : ℚ) = 0)
    (h1 : 1 + y / (f : ℚ) ≠ 0) :
    Lec01.calculate_bond_price face cr years y f
      = schedulePV (face * cr / f) face (y / f) (nPeriods years f) := by
  have hn : 1 ≤ nPeriods years f := one_le_nPeriods years f
  rw [Lec01.price_unfold_lec01 face cr years y f hy]
  rcases hband with hb | hb0
  · have hrne : y / (f : ℚ) ≠ 0 := by
      intro h
      rw [h] at hb
      norm_num at hb
    rw [if_neg (not_lt.mpr hb)]
    unfold schedulePV
    exact closed_eq_sum _ _ _ hrne h1 hn
  · rw [hb0]
    rw [if_pos (by norm_num)]
    have hPV : schedulePV (face * cr / f) face 0 (nPeriods years f)
        = (nPeriods years f : ℚ) * (face * cr / f) + face := by
      unfold schedulePV
      have hterm : ∀ t ∈ Finset.range (nPeriods years f),
          cashflow (face * cr / f) face (nPeriods years f) (t + 1) / (1 + 0) ^ (t + 1)
            = cashflow (face * cr / f) face (nPeriods years f) (t + 1) := by
        intro t _
        norm_num
      rw [Finset.sum_congr rfl hterm, sum_cashflow_eq _ _ hn]
    rw [hPV]
    norm_num
    ring

/-- C1 counterexample, two failure modes of the claim as frozen.
First, for the bond face 100, coupon 0, 0.5 years, semiannual, at yield 0
the convexity is 1/2 > 0, yet for the yield shift Δy = 10 (i.e. +1000
percent, within the claim's "every yield shift") the duration-plus-convexity
estimate is strictly farther from the actual proportional price change than
the duration-only estimate: the actual change is -5/6, the first-order
estimate -5, the second-order estimate +20.
Second, the claim also fails for a matured bond with a downward shift: at
face 1000, coupon 5 percent, years 0, yield 10 percent, semiannual,
Δy = -5 percent, the convexity is 4100/9261 > 0 but repricing returns the
face value at both yields, so the actual change is 0 while the first-order
estimate is 1764/74088 and the second-order estimate 1805/74088 — again
strictly farther.  These force the amendment's restrictions to nonpositive
shifts and to live bonds (years > 0). -/
theorem C1_counterexample :
    (Lec01.calculate_duration 100 0 (1/2) 0 2 = some (1/2) ∧
     Lec01.calculate_convexity 100 0 (1/2) 0 2 = some (1/2) ∧
     (0 : ℚ) < 1/2 ∧
     |(Lec01.calculate_bond_price 100 0 (1/2) 10 2
         - Lec01.calculate_bond_price 100 0 (1/2) 0 2)
           / Lec01.calculate_bond_price 100 0 (1/2) 0 2
       - Lec01.price_change_duration_convexity
           (Lec01.calculate_modified_duration (1/2) 0 2) (1/2) 10|
     > |(Lec01.calculate_bond_price 100 0 (1/2) 10 2
         - Lec01.calculate_bond_price 100 0 (1/2) 0 2)
           / Lec01.calculate_bond_price 100 0 (1/2) 0 2
       - Lec01.price_change_duration
           (Lec01.calculate_modified_duration (1/2) 0 2) 10|) ∧
    (Lec01.calculate_duration 1000 (1/20) 0 (1/10) 2 = some (1/2) ∧
     Lec01.calculate_convexity 1000 (1/20) 0 (1/10) 2 = some (4100/9261) ∧
     (0 : ℚ) < 4100/9261 ∧ (-(1/20) : ℚ) ≤ 0 ∧
     |(Lec01.calculate_bond_price 1000 (1/20) 0 (1/10 + -(1/20)) 2
         - Lec01.calculate_bond_price 1000 (1/20) 0 (1/10) 2)
           / Lec01.calculate_bond_price 1000 (1/20) 0 (1/10) 2
       - Lec01.price_change_duration_convexity
           (Lec01.calculate_modified_duration (1/2) (1/10) 2) (4100/9261) (-(1/20))|
     > |(Lec01.calculate_bond_price 1000 (1/20) 0 (1/10 + -(1/20)) 2
         - Lec01.calculate_bond_price 1000 (1/20) 0 (1/10) 2)
           / Lec01.calculate_bond_price 1000 (1/20) 0 (1/10) 2
       - Lec01.price_change_duration
           (Lec01.calculate_modified_duration (1/2) (1/10) 2) (-(1/20))|) := by
  decide

set_option maxHeartbeats 1000000 in
/-- C1 (amended): for every live bond (face > 0, coupon rate ≥ 0,
frequency ≥ 1, years to maturity > 0) whose per-period rate lies in the
regular discounting regime (`|y/f| > 1e-12`, positive discount factor) and
every nonpositive yield shift Δy that keeps the shifted per-period rate
regular (outside the punctured band, or exactly zero) with a positive
discount factor, the duration-plus-convexity estimate of the proportional
price change is at least as close to the actual repriced change as the
duration-only estimate.  (For positive shifts the claim is false — the
convexity term grows quadratically and eventually overshoots — and for a
matured bond, years ≤ 0, repricing pins the actual change at zero while the
estimates are not zero; both failure modes are in the counterexample.) -/
theorem C1_second_order_estimate (face cr years y dy : ℚ) (f : ℕ)
    (hface : 0 < face) (hcr : 0 ≤ cr) (hf : 1 ≤ f) (hy : 0 < years)
    (hband : 1/10^12 < |y / (f : ℚ)|) (h1 : 0 < 1 + y / (f : ℚ))
    (hdy : dy ≤ 0) (h1' : 0 < 1 + (y + dy) / (f : ℚ))
    (hband' : 1/10^12 ≤ |(y + dy) / (f : ℚ)| ∨ (y + dy) / (f : ℚ) = 0)
    (D C : ℚ)
    (hD : Lec01.calculate_duration face cr years y f = some D)
    (hC : Lec01.calculate_convexity face cr years y f = some C) :
    |(Lec01.calculate_bond_price face cr years (y + dy) f
        - Lec01.calculate_bond_price face cr years y f)
          / Lec01.calculate_bond_price face cr years y f
      - Lec01.price_change_duration_convexity
          (Lec01.calculate_modified_duration D y f) C dy|
    ≤ |(Lec01.calculate_bond_price face cr years (y + dy) f
        - Lec01.calculate_bond_price face cr years y f)
          / Lec01.calculate_bond_price face cr years y f
      - Lec01.price_change_duration
          (Lec01.calculate_modified_duration D y f) dy| := by
  have hf0 : (0 : ℚ) < f := by exact_mod_cast Nat.lt_of_lt_of_le Nat.zero_lt_one hf
  have hfne : (f : ℚ) ≠ 0 := ne_of_gt hf0
  have hc : (0 : ℚ) ≤ face * cr / f := by positivity
  have hn : 1 ≤ nPeriods years f := one_le_nPeriods years f
  have h1ne : 1 + y / (f : ℚ) ≠ 0 := ne_of_gt h1
  have hrne : y / (f : ℚ) ≠ 0 := by
    intro h
    rw [h] at hband
    norm_num at hband
  have hrr : (y + dy) / (f : ℚ) ≤ y / (f : ℚ) :=
    div_le_div_of_le hf0.le (by linarith)
  -- prices as schedule sums
  have hPeq := Lec01.price_eq_schedulePV face cr years y f hy
    (Or.inl hband.le) h1ne
  have hPeq' := Lec01.price_eq_schedulePV face cr years (y + dy) f hy
    hband' (ne_of_gt h1')
  have hS0pos : 0 < schedulePV (face * cr / f) face (y / f) (nPeriods years f) :=
    schedulePV_pos _ _ hn hc hface h1
  have hS0ne := ne_of_gt hS0pos
  have hS2nn : 0 ≤ scheduleS2 (face * cr / f) face (y / f) (nPeriods years f) :=
    scheduleS2_nonneg _ _ _ hc hface.le h1
  -- duration accumulators as schedule sums
  rw [Lec01.duration_eq] at hD
  have hTeq : (∑ t ∈ Finset.range (nPeriods years f),
      Lec01.pv (face * cr / f) face (y / f) (nPeriods years f) (t + 1))
      = schedulePV (face * cr / f) face (y / f) (nPeriods years f) := by
    unfold schedulePV
    apply Finset.sum_congr rfl
    intro t _
    unfold Lec01.pv
    rw [if_pos hband]
  rw [hTeq, if_neg hS0ne] at hD
  have hDeq : D = (∑ t ∈ Finset.range (nPeriods years f),
      ((t + 1 : ℚ) / f) * Lec01.pv (face * cr / f) face (y / f) (nPeriods years f) (t + 1))
      / schedulePV (face * cr / f) face (y / f) (nPeriods years f) :=
    (Option.some.inj hD).symm
  have hWeq : (∑ t ∈ Finset.range (nPeriods years f),
      ((t + 1 : ℚ) / f) * Lec01.pv (face * cr / f) face (y / f) (nPeriods years f) (t + 1))
      = ((1 + y / (f : ℚ)) / f)
          * scheduleS1 (face * cr / f) face (y / f) (nPeriods years f) := by
    unfold scheduleS1
    rw [Finset.mul_sum]
    apply Finset.sum_congr rfl
    intro t _
    unfold Lec01.pv
    rw [if_pos hband]
    set a := 1 + y / (f : ℚ) with hadef
    have hane : a ≠ 0 := h1ne
    have hpow : a ^ (t + 2) = a ^ (t + 1) * a := by ring
    have hp : a ^ (t + 1) ≠ 0 := pow_ne_zero _ hane
    rw [hpow]
    field_simp
    ring
  -- convexity accumulator as schedule sum
  rw [Lec01.convexity_eq, hPeq, if_neg hS0ne] at hC
  have hQeq : (∑ t ∈ Finset.range (nPeriods years f),
      Lec01.pv (face * cr / f) face (y / f) (nPeriods years f) (t + 1)
        * ((t : ℚ) + 1) * ((t : ℚ) + 2))
      = (1 + y / (f : ℚ)) ^ 2
          * scheduleS2 (face * cr / f) face (y / f) (nPeriods years f) := by
    unfold scheduleS2
    rw [Finset.mul_sum]
    apply Finset.sum_congr rfl
    intro t _
    unfold Lec01.pv
    rw [if_pos hband]
    set a := 1 + y / (f : ℚ) with hadef
    have hane : a ≠ 0 := h1ne
    have hpow : a ^ (t + 3) = a ^ (t + 1) * a ^ 2 := by ring
    have hp : a ^ (t + 1) ≠ 0 := pow_ne_zero _ hane
    rw [hpow]
    field_simp
    ring
  rw [hQeq] at hC
  have hCeq : C = scheduleS2 (face * cr / f) face (y / f) (nPeriods years f)
      / (schedulePV (face * cr / f) face (y / f) (nPeriods years f) * (f : ℚ) ^ 2) := by
    rw [← Option.some.inj hC]
    set a := 1 + y / (f : ℚ) with hadef
    have hane : a ≠ 0 := h1ne
    field_simp
    ring
  -- the yield shift in terms of the rate drop
  have hdyeq : dy = -((f : ℚ) * (y / (f : ℚ) - (y + dy) / (f : ℚ))) := by
    field_simp
  -- estimates in closed fraction form
  have hest1 : Lec01.price_change_duration
      (Lec01.calculate_modified_duration D y f) dy
      = (y / (f : ℚ) - (y + dy) / (f : ℚ))
          * scheduleS1 (face * cr / f) face (y / f) (nPeriods years f)
          / schedulePV (face * cr / f) face (y / f) (nPeriods years f) := by
    unfold Lec01.price_change_duration Lec01.calculate_modified_duration
    rw [hDeq, hWeq, hdyeq]
    set a := 1 + y / (f : ℚ) with hadef
    field_simp
    ring
  have hest2 : Lec01.price_change_duration_convexity
      (Lec01.calculate_modified_duration D y f) C dy
      = (y / (f : ℚ) - (y + dy) / (f : ℚ))
          * scheduleS1 (face * cr / f) face (y / f) (nPeriods years f)
          / schedulePV (face * cr / f) face (y / f) (nPeriods years f)
        + (y / (f : ℚ) - (y + dy) / (f : ℚ)) ^ 2
          * scheduleS2 (face * cr / f) face (y / f) (nPeriods years f)
          / (2 * schedulePV (face * cr / f) face (y / f) (nPeriods years f)) := by
    unfold Lec01.price_change_duration_convexity Lec01.calculate_modified_duration
    rw [hDeq, hWeq, hCeq, hdyeq]
    set a := 1 + y / (f : ℚ) with hadef
    field_simp
    ring
  -- summed Taylor domination
  have hkey := second_order_dominates (face * cr / f) face hn hc hface h1 h1' hrr
  have hccnn : 0 ≤ (y / (f : ℚ) - (y + dy) / (f : ℚ)) ^ 2
      * scheduleS2 (face * cr / f) face (y / f) (nPeriods years f)
      / (2 * schedulePV (face * cr / f) face (y / f) (nPeriods years f)) := by
    apply div_nonneg (mul_nonneg (sq_nonneg _) hS2nn)
    linarith
  have hkey2 : (y / (f : ℚ) - (y + dy) / (f : ℚ)) ^ 2
      * scheduleS2 (face * cr / f) face (y / f) (nPeriods years f)
      / (2 * schedulePV (face * cr / f) face (y / f) (nPeriods years f))
      ≤ (schedulePV (face * cr / f) face ((y + dy) / f) (nPeriods years f)
          - schedulePV (face * cr / f) face (y / f) (nPeriods years f))
          / schedulePV (face * cr / f) face (y / f) (nPeriods years f)
        - (y / (f : ℚ) - (y + dy) / (f : ℚ))
          * scheduleS1 (face * cr / f) face (y / f) (nPeriods years f)
          / schedulePV (face * cr / f) face (y / f) (nPeriods years f) := by
    have h2 : (y / (f : ℚ) - (y + dy) / (f : ℚ)) ^ 2
        * scheduleS2 (face * cr / f) face (y / f) (nPeriods years f) / 2
        ≤ schedulePV (face * cr / f) face ((y + dy) / f) (nPeriods years f)
          - schedulePV (face * cr / f) face (y / f) (nPeriods years f)
          - (y / (f : ℚ) - (y + dy) / (f : ℚ))
            * scheduleS1 (face * cr / f) face (y / f) (nPeriods years f) := by
      linarith [hkey]
    calc (y / (f : ℚ) - (y + dy) / (f : ℚ)) ^ 2
          * scheduleS2 (face * cr / f) face (y / f) (nPeriods years f)
          / (2 * schedulePV (face * cr / f) face (y / f) (nPeriods years f))
        = ((y / (f : ℚ) - (y + dy) / (f : ℚ)) ^ 2
            * scheduleS2 (face * cr / f) face (y / f) (nPeriods years f) / 2)
            / schedulePV (face * cr / f) face (y / f) (nPeriods years f) := by
          ring
      _ ≤ (schedulePV (face * cr / f) face ((y + dy) / f) (nPeriods years f)
            - schedulePV (face * cr / f) face (y / f) (nPeriods years f)
            - (y / (f : ℚ) - (y + dy) / (f : ℚ))
              * scheduleS1 (face * cr / f) face (y / f) (nPeriods years f))
            / schedulePV (face * cr / f) face (y / f) (nPeriods years f) :=
          div_le_div_of_le hS0pos.le h2
      _ = (schedulePV (face * cr / f) face ((y + dy) / f) (nPeriods years f)
            - schedulePV (face * cr / f) face (y / f) (nPeriods years f))
            / schedulePV (face * cr / f) face (y / f) (nPeriods years f)
          - (y / (f : ℚ) - (y + dy) / (f : ℚ))
            * scheduleS1 (face * cr / f) face (y / f) (nPeriods years f)
            / schedulePV (face * cr / f) face (y / f) (nPeriods years f) := by
          ring
  rw [hPeq, hPeq', hest1, hest2]
  apply abs_le_abs
  · linarith
  · linarith

/-- C1 witness: the amended theorem at a concrete bond and a concrete
downward yield shift. -/
theorem C1_witness :
    |(Lec01.calculate_bond_price 100 0 (1/2) (1/10 + -(1/10)) 2
        - Lec01.calculate_bond_price 100 0 (1/2) (1/10) 2)
          / Lec01.calculate_bond_price 100 0 (1/2) (1/10) 2
      - Lec01.price_change_duration_convexity
          (Lec01.calculate_modified_duration
            ((Lec01.calculate_duration 100 0 (1/2) (1/10) 2).getD 0) (1/10) 2)
          ((Lec01.calculate_convexity 100 0 (1/2) (1/10) 2).getD 0) (-(1/10))|
    ≤ |(Lec01.calculate_bond_price 100 0 (1/2) (1/10 + -(1/10)) 2
        - Lec01.calculate_bond_price 100 0 (1/2) (1/10) 2)
          / Lec01.calculate_bond_price 100 0 (1/2) (1/10) 2
      - Lec01.price_change_duration
          (Lec01.calculate_modified_duration
            ((Lec01.calculate_duration 100 0 (1/2) (1/10) 2).getD 0) (1/10) 2)
          (-(1/10))| :=
  C1_second_order_estimate 100 0 (1/2) (1/10) (-(1/10)) 2 (by norm_num)
    (by norm_num) (by norm_num) (by norm_num)
    (by rw [abs_of_nonneg] <;> norm_num) (by norm_num) (by norm_num)
    (by norm_num)
    (Or.inr (by norm_num))
    ((Lec01.calculate_duration 100 0 (1/2) (1/10) 2).getD 0)
    ((Lec01.calculate_convexity 100 0 (1/2) (1/10) 2).getD 0)
    (by decide) (by decide)

end BondApp
